import Mathlib

/-!
Shallow embedding of the `edj2010/web` repository (a minimal concurrent
HTTP/1.1 server, files `src/lib.rs`, `src/http.rs`, `src/error.rs`).

Rust strings are modelled as `List Char`; raw byte buffers as `List Nat`
(each entry a byte value).  Fallible Rust functions returning
`Result<T, WebServerError>` become `Except WebServerError T`; places where
the Rust code can panic (an `unwrap()` or an out-of-range byte slice) are
modelled by wrapping the result in `Option`, with `none` standing for a
panic of the executing thread.
-/

namespace Web

/-- Rust `str::split_once(sep)`: split at the first occurrence of the
separator character, returning the parts before and after it. -/
def splitOnce (sep : Char) : List Char → Option (List Char × List Char)
  | [] => none
  | c :: rest =>
    if c = sep then some ([], rest)
    else
      match splitOnce sep rest with
      | none => none
      | some (pre, post) => some (c :: pre, post)

/-- Rust `str::split(c)` for a one-character pattern: pieces between
occurrences of the separator, empty pieces preserved, `[""]` on empty
input. -/
def splitChar (sep : Char) : List Char → List (List Char)
  | [] => [[]]
  | c :: rest =>
    if c = sep then [] :: splitChar sep rest
    else
      match splitChar sep rest with
      | [] => [[c]]
      | l :: ls => (c :: l) :: ls

/-- Rust `str::split("\r\n")`: pieces between occurrences of the two-character
separator CRLF, scanning left to right, empty pieces preserved. -/
def splitCRLF : List Char → List (List Char)
  | [] => [[]]
  | '\r' :: '\n' :: rest => [] :: splitCRLF rest
  | c :: rest =>
    match splitCRLF rest with
    | [] => [[c]]
    | l :: ls => (c :: l) :: ls

/-- UTF-8 encoding of one character, as the list of its byte values
(mirrors how Rust lays `str` out in memory, so that `str::len` and
`str::as_bytes` can be modelled). -/
def utf8EncodeChar (c : Char) : List Nat :=
  let n := c.toNat
  if n < 0x80 then [n]
  else if n < 0x800 then [0xC0 + n / 0x40, 0x80 + n % 0x40]
  else if n < 0x10000 then
    [0xE0 + n / 0x1000, 0x80 + (n / 0x40) % 0x40, 0x80 + n % 0x40]
  else
    [0xF0 + n / 0x40000, 0x80 + (n / 0x1000) % 0x40,
     0x80 + (n / 0x40) % 0x40, 0x80 + n % 0x40]

/-- UTF-8 byte sequence of a string (Rust `str::as_bytes`). -/
def utf8Bytes : List Char → List Nat
  | [] => []
  | c :: cs => utf8EncodeChar c ++ utf8Bytes cs

/-- Rust `str::len`: the length in bytes of the UTF-8 encoding. -/
def utf8Length (s : List Char) : Nat :=
  (utf8Bytes s).length

/-- Strict UTF-8 decoding of a single scalar value from the front of a byte
list, as in Rust `core::str::from_utf8`: rejects overlong encodings,
surrogates and values above U+10FFFF.  Returns the decoded character and
the remaining bytes; every successful step consumes at least one byte. -/
def decodeOne : List Nat → Option (Char × List Nat)
  | [] => none
  | b1 :: t1 =>
    if b1 < 0x80 then some (Char.ofNat b1, t1)
    else if 0xC2 ≤ b1 ∧ b1 ≤ 0xDF then
      match t1 with
      | b2 :: t2 =>
        if 0x80 ≤ b2 ∧ b2 ≤ 0xBF then
          some (Char.ofNat ((b1 - 0xC0) * 0x40 + (b2 - 0x80)), t2)
        else none
      | [] => none
    else if 0xE0 ≤ b1 ∧ b1 ≤ 0xEF then
      match t1 with
      | b2 :: b3 :: t3 =>
        let lo2 := if b1 = 0xE0 then 0xA0 else 0x80
        let hi2 := if b1 = 0xED then 0x9F else 0xBF
        if lo2 ≤ b2 ∧ b2 ≤ hi2 ∧ 0x80 ≤ b3 ∧ b3 ≤ 0xBF then
          some (Char.ofNat ((b1 - 0xE0) * 0x1000 + (b2 - 0x80) * 0x40 + (b3 - 0x80)), t3)
        else none
      | _ => none
    else if 0xF0 ≤ b1 ∧ b1 ≤ 0xF4 then
      match t1 with
      | b2 :: b3 :: b4 :: t4 =>
        let lo2 := if b1 = 0xF0 then 0x90 else 0x80
        let hi2 := if b1 = 0xF4 then 0x8F else 0xBF
        if lo2 ≤ b2 ∧ b2 ≤ hi2 ∧ 0x80 ≤ b3 ∧ b3 ≤ 0xBF ∧ 0x80 ≤ b4 ∧ b4 ≤ 0xBF then
          some (Char.ofNat ((b1 - 0xF0) * 0x40000 + (b2 - 0x80) * 0x1000 +
                            (b3 - 0x80) * 0x40 + (b4 - 0x80)), t4)
        else none
      | _ => none
    else none

/-- Decoding loop; the fuel argument is initialised to the byte count,
which suffices because each `decodeOne` step consumes at least one byte. -/
def utf8DecodeGo : Nat → List Nat → Option (List Char)
  | _, [] => some []
  | 0, _ :: _ => none
  | fuel + 1, b :: t =>
    match decodeOne (b :: t) with
    | none => none
    | some (c, rest) => (utf8DecodeGo fuel rest).map (fun cs => c :: cs)

/-- Rust `std::str::from_utf8`: `some` with the decoded characters when the
bytes are valid UTF-8, `none` on a decoding error. -/
def utf8Decode (l : List Nat) : Option (List Char) :=
  utf8DecodeGo l.length l

/-- Model of `std::io::Error` as used by this crate: either an error built
by `Error::new(ErrorKind::InvalidData, message)` (the crate's
`parse_error`), or an opaque operating-system error from the socket or
filesystem. -/
inductive IoError
  | invalidData (msg : List Char)
  | osError (code : Nat)
deriving DecidableEq

/-- The crate's error enum `WebServerError` from `src/error.rs`. -/
inductive WebServerError
  | Utf8Error
  | IOError (e : IoError)
  | Other (msg : List Char)
deriving DecidableEq

/-- Helper `parse_error` from `src/http.rs`:
`WebServerError::IOError(Error::new(ErrorKind::InvalidData, error))`. -/
def parse_error (msg : List Char) : WebServerError :=
  WebServerError.IOError (IoError.invalidData msg)

/-- Constant `HTTP_VERSION` from `src/http.rs`. -/
def HTTP_VERSION : List Char := ("HTTP/1.1").data

/-- The `Charset` enum from `src/http.rs`. -/
inductive Charset
  | Utf8
deriving DecidableEq

/-- Display of `Charset`: always `utf-8`. -/
def Charset.display : Charset → List Char
  | .Utf8 => ("utf-8").data

/-- The `ContentType` enum from `src/http.rs`. -/
inductive ContentType
  | TextHTML (c : Option Charset)
  | TextJavascript (c : Option Charset)
  | ApplicationWASM
deriving DecidableEq

/-- Constructor `ContentType::html()`. -/
def ContentType.html : ContentType := .TextHTML none

/-- Display of `ContentType`, following the crate's `Display` impl. -/
def ContentType.display : ContentType → List Char
  | .TextHTML none => ("text/html").data
  | .TextHTML (some c) => ("text/html charset:").data ++ c.display
  | .TextJavascript none => ("text/javascript").data
  | .TextJavascript (some c) => ("text/javascript charset:").data ++ c.display
  | .ApplicationWASM => ("application/wasm").data

/-- The `Header` enum from `src/http.rs`. -/
inductive Header
  | Host (s : List Char)
  | ContentLength (n : Nat)
  | ContentType (c : ContentType)
  | Other (hname value : List Char)
deriving DecidableEq

/-- Rust `Header::from_str` (the `FromStr` impl in `src/http.rs`): split at
the first colon; `&contents[1..]` drops the first byte after the colon,
which panics (modelled as `none`) when nothing follows the colon or when
byte index 1 falls inside a multi-byte character (first character with
code point at least 0x80). -/
def Header.from_str (line : List Char) : Option (Except WebServerError Header) :=
  match splitOnce ':' line with
  | none =>
    some (.error (parse_error (("Incorrectly formatted header: ").data ++ line ++
      (" length: ").data ++ Nat.toDigits 10 (utf8Length line))))
  | some (header, contents) =>
    match contents with
    | [] => none
    | c :: rest =>
      if 0x80 ≤ c.toNat then none
      else if header = ("Host").data then some (.ok (.Host rest))
      else some (.ok (.Other header rest))

/-- Display of `Header`, following the crate's `Display` impl. -/
def Header.display : Header → List Char
  | .Host s => ("Host: ").data ++ s
  | .ContentLength n => ("Content-Length: ").data ++ Nat.toDigits 10 n
  | .ContentType c => ("Content-Type: ").data ++ c.display
  | .Other s t => s ++ (": ").data ++ t

/-- The `RequestMethod` enum from `src/http.rs`. -/
inductive RequestMethod
  | Head
  | Get
  | Post (data : List Char)
deriving DecidableEq

/-- The `Request` struct from `src/http.rs`. -/
structure Request where
  uri : List Char
  http_version : List Char
  headers : List Header
  method : RequestMethod
deriving DecidableEq

/-- Loop body of `Request::parse_request_headers_and_data`, walking the
lines after the first one: lines up to the first blank line (the Rust code
compares against both `"\r\n"` and `""`) are parsed as headers; when the
loop stops on a blank line the remaining lines are concatenated into the
body (`Some`), and when it runs off the end of the input the body is
`None`.  A header-parse panic propagates as `none`. -/
def headersLoop : List (List Char) →
    Option (Except WebServerError (List Header × Option (List Char)))
  | [] => some (.ok ([], none))
  | line :: rest =>
    if line = ("\r\n").data ∨ line = ([] : List Char) then
      some (.ok ([], some rest.flatten))
    else
      match Header.from_str line with
      | none => none
      | some (.error e) => some (.error e)
      | some (.ok h) =>
        match headersLoop rest with
        | none => none
        | some (.error e) => some (.error e)
        | some (.ok (hs, d)) => some (.ok (h :: hs, d))

/-- Rust `Request::parse_request_headers_and_data`: starts at line index 1
(skipping the request line). -/
def Request.parse_request_headers_and_data (request : List (List Char)) :
    Option (Except WebServerError (List Header × Option (List Char))) :=
  headersLoop request.tail

/-- Rust `Request::parse` from `src/http.rs`.  Split on CRLF; the first
line must have exactly 3 space-separated tokens; headers and body are
recovered by `parse_request_headers_and_data`; the method token is matched
against `GET` and `POST`, with `POST` requiring the body to be present
(`Some`).  A panic inside header parsing propagates as `none`. -/
def Request.parse (request : List Char) : Option (Except WebServerError Request) :=
  let request_lines := splitCRLF request
  match request_lines.head? with
  | none => some (.error (parse_error (("Request empty").data)))
  | some fl =>
    match splitChar ' ' fl with
    | [m, uri, http_version] =>
      match Request.parse_request_headers_and_data request_lines with
      | none => none
      | some (.error e) => some (.error e)
      | some (.ok (headers, data)) =>
        if m = ("GET").data then
          some (.ok ⟨uri, http_version, headers, .Get⟩)
        else if m = ("POST").data then
          match data with
          | none => some (.error (parse_error (("Post missing data").data)))
          | some d => some (.ok ⟨uri, http_version, headers, .Post d⟩)
        else
          some (.error (parse_error (("Failed to match request type with: ").data ++ m)))
    | _ => some (.error (parse_error (("Malformed request: ").data ++ request)))

/-- The `ResponseType` enum from `src/http.rs`. -/
inductive ResponseType
  | Ok
  | NotFound
  | Forbidden
  | MethodNotAllowed
  | InternalServerError
deriving DecidableEq

/-- Rust `ResponseType::condition_code`. -/
def ResponseType.condition_code : ResponseType → Nat
  | .Ok => 200
  | .Forbidden => 403
  | .NotFound => 404
  | .MethodNotAllowed => 405
  | .InternalServerError => 500

/-- Rust `ResponseType::name`. -/
def ResponseType.name : ResponseType → List Char
  | .Ok => ("Ok").data
  | .Forbidden => ("Forbidden").data
  | .NotFound => ("Not Found").data
  | .MethodNotAllowed => ("Method Not Allowed").data
  | .InternalServerError => ("Internal Server Error").data

/-- Rust `ResponseType::to_string`: `format!("{} {}", condition_code, name)`. -/
def ResponseType.to_string (rt : ResponseType) : List Char :=
  Nat.toDigits 10 rt.condition_code ++ (" ").data ++ rt.name

/-- The `Response` struct from `src/http.rs`; the body `data` is a raw byte
vector. -/
structure Response where
  which : ResponseType
  http_version : List Char
  headers : List Header
  data : Option (List Nat)
deriving DecidableEq

/-- Rust `Response::to_raw`: the headers are rendered and joined by CRLF;
with a body present the output is the UTF-8 bytes of
`format!("{} {}\r\n{}\r\n\r\n", http_version, which, headers)` followed by
the raw body bytes; with no body it is the bytes of
`format!("{} {}\r\n{}", http_version, which, headers)`. -/
def Response.to_raw (r : Response) : List Nat :=
  let headers := List.intercalate (("\r\n").data) (r.headers.map Header.display)
  match r.data with
  | some d =>
    utf8Bytes (r.http_version ++ (" ").data ++ r.which.to_string ++
      ("\r\n").data ++ headers ++ ("\r\n\r\n").data) ++ d
  | none =>
    utf8Bytes (r.http_version ++ (" ").data ++ r.which.to_string ++
      ("\r\n").data ++ headers)

/-- Rust `Response::serve_file`: the filesystem read `fs::read(filename)`
is modelled by an explicit function `fs` from paths to either an I/O error
or the file's bytes.  On success the response carries a Content-Length
header with the byte count, a Content-Type header with the given content
type, and the file bytes as body; a read error propagates via `?` (the
`From<io::Error>` impl wraps it as `WebServerError::IOError`). -/
def Response.serve_file (fs : List Char → Except IoError (List Nat))
    (filename : List Char) (content_type : ContentType)
    (response_type : ResponseType) : Except WebServerError Response :=
  match fs filename with
  | .error e => .error (.IOError e)
  | .ok d =>
    .ok { which := response_type
          http_version := HTTP_VERSION
          headers := [.ContentLength d.length, .ContentType content_type]
          data := some d }

/-- Model of the `TcpStream` I/O performed by one connection job.
`readResult` is the buffer contents delivered by `stream.read` (or the
read's I/O error); `writeResult`/`flushResult` are `none` when the
corresponding call succeeds (a successful write is modelled as writing all
bytes) and `some e` when it fails with error `e`, in which case the write
delivers nothing to the socket. -/
structure StreamModel where
  readResult : Except IoError (List Nat)
  writeResult : Option IoError
  flushResult : Option IoError

/-- Outcome of one connection job: either the worker thread panicked, or
the job finished with a `Result<(), WebServerError>`; in both cases
`written` records the bytes delivered to the socket. -/
inductive ConnOutcome
  | panicked (written : List Nat)
  | finished (r : Except WebServerError Unit) (written : List Nat)

/-- Rust `WebServer::handle_connection` from `src/lib.rs`:
`stream.read(&mut buffer).unwrap()` panics on a read error; the buffer is
decoded with `from_utf8(&buffer)?` and parsed with `Request::parse(..)?`;
the handler's result is `unwrap_or`-substituted with the preconfigured
internal-error page; the serialized response is written and the stream
flushed, both with `?`. -/
def handle_connection (handler : Request → Except WebServerError Response)
    (stream : StreamModel) (internal_error_page : Response) : ConnOutcome :=
  match stream.readResult with
  | .error _ => .panicked []
  | .ok buffer =>
    match utf8Decode buffer with
    | none => .finished (.error .Utf8Error) []
    | some s =>
      match Request.parse s with
      | none => .panicked []
      | some (.error e) => .finished (.error e) []
      | some (.ok request) =>
        let response :=
          match handler request with
          | .ok r => r
          | .error _ => internal_error_page
        match stream.writeResult with
        | some e => .finished (.error (.IOError e)) []
        | none =>
          match stream.flushResult with
          | some e => .finished (.error (.IOError e)) response.to_raw
          | none => .finished (.ok ()) response.to_raw

/-- Modelled from the spec: the worker-pool module (`src/threadpool.rs`,
declared in `src/lib.rs` as `mod threadpool`) is not among the provided
sources.  Following spec sections 3 and 4.1, the pool is one shared FIFO
job channel consumed by `n` workers: a state holds the jobs still pending
in the channel (in submission order, as enqueued by `execute`) and the log
of execution events `(worker, job)` in the order they occurred. -/
structure PoolState (n : Nat) where
  pending : List Nat
  log : List (Fin n × Nat)

/-- Modelled from the spec: one scheduling step — some worker receives the
job at the head of the shared channel and runs it; the job is removed from
the channel, so no other worker can ever receive it. -/
inductive PoolStep (n : Nat) : PoolState n → PoolState n → Prop
  | exec (w : Fin n) (j : Nat) (p : List Nat) (l : List (Fin n × Nat)) :
      PoolStep n ⟨j :: p, l⟩ ⟨p, l ++ [(w, j)]⟩

/-- Modelled from the spec: a finite sequence of scheduling steps under an
arbitrary interleaving of the workers. -/
inductive PoolRun (n : Nat) : PoolState n → PoolState n → Prop
  | refl (s : PoolState n) : PoolRun n s s
  | step {s t u : PoolState n} : PoolStep n s t → PoolRun n t u → PoolRun n s u

theorem utf8Bytes_append (a b : List Char) :
    utf8Bytes (a ++ b) = utf8Bytes a ++ utf8Bytes b := by
  induction a with
  | nil => rfl
  | cons c cs ih => simp [utf8Bytes, ih]

theorem PoolRun.trace_eq {n : Nat} {s t : PoolState n} (h : PoolRun n s t) :
    t.log.map Prod.snd ++ t.pending = s.log.map Prod.snd ++ s.pending := by
  induction h with
  | refl s => rfl
  | step hst _ ih =>
    cases hst with
    | exec w j p l => simpa using ih

theorem pool_drain {n : Nat} (hn : 0 < n) (jobs : List Nat) :
    ∀ l : List (Fin n × Nat), ∃ logF : List (Fin n × Nat),
      PoolRun n ⟨jobs, l⟩ ⟨[], logF⟩ ∧
      logF.map Prod.snd = l.map Prod.snd ++ jobs := by
  induction jobs with
  | nil => exact fun l => ⟨l, .refl _, by simp⟩
  | cons j js ih =>
    intro l
    obtain ⟨logF, hrun, hmap⟩ := ih (l ++ [(⟨0, hn⟩, j)])
    refine ⟨logF, .step (.exec ⟨0, hn⟩ j js l) hrun, ?_⟩
    simp [hmap]

/-- C1: every sequence of jobs submitted to the worker pool is executed
exactly once by exactly one worker each — for any interleaving of the
workers, the log of a completed run lists exactly the submitted jobs, in
order, each carried out by the single worker that dequeued it — and (with
at least one worker) a run draining the whole queue exists, so destroying
the pool after all submissions joins the workers with no job left
pending. -/
theorem pool_executes_each_job_exactly_once :
    (∀ (n : Nat) (jobs : List Nat) (final : PoolState n),
      PoolRun n ⟨jobs, []⟩ final → final.pending = [] →
      final.log.map Prod.snd = jobs) ∧
    (∀ n : Nat, 0 < n → ∀ jobs : List Nat,
      ∃ final : PoolState n, PoolRun n ⟨jobs, []⟩ final ∧
        final.pending = [] ∧ final.log.map Prod.snd = jobs) := by
  constructor
  · intro n jobs final hrun hdone
    have h := hrun.trace_eq
    simpa [hdone] using h
  · intro n hn jobs
    obtain ⟨logF, hrun, hmap⟩ := pool_drain hn jobs []
    exact ⟨⟨[], logF⟩, hrun, rfl, by simpa using hmap⟩

theorem pool_executes_each_job_exactly_once_witness :
    PoolRun 1 ⟨[5, 7], []⟩ ⟨[], [((0 : Fin 1), 5), ((0 : Fin 1), 7)]⟩ ∧
    List.map Prod.snd [((0 : Fin 1), 5), ((0 : Fin 1), 7)] = [5, 7] :=
  have run : PoolRun 1 ⟨[5, 7], []⟩ ⟨[], [((0 : Fin 1), 5), ((0 : Fin 1), 7)]⟩ :=
    .step (.exec 0 5 [7] []) (.step (.exec 0 7 [] [((0 : Fin 1), 5)]) (.refl _))
  ⟨run, pool_executes_each_job_exactly_once.1 1 [5, 7]
    ⟨[], [((0 : Fin 1), 5), ((0 : Fin 1), 7)]⟩ run rfl⟩

/-- C2: for every connection whose bytes decode and parse successfully, a
handler that returns an error has its result replaced by the preconfigured
internal-server-error response: on a successful write the bytes delivered
to the socket are exactly `to_raw` of that response, and the worker never
panics on a handler failure. -/
theorem handler_error_yields_error_page_bytes
    (handler : Request → Except WebServerError Response) (stream : StreamModel)
    (page : Response) (buf : List Nat) (s : List Char) (req : Request)
    (e : WebServerError)
    (hread : stream.readResult = .ok buf)
    (hdec : utf8Decode buf = some s)
    (hparse : Request.parse s = some (.ok req))
    (hhandler : handler req = .error e) :
    (stream.writeResult = none →
      handle_connection handler stream page =
        .finished
          (match stream.flushResult with
           | none => .ok ()
           | some fe => .error (.IOError fe)) page.to_raw) ∧
    (∀ w, handle_connection handler stream page ≠ .panicked w) := by
  constructor
  · intro hw
    cases hf : stream.flushResult <;>
      simp [handle_connection, hread, hdec, hparse, hhandler, hw, hf]
  · intro w
    cases hw : stream.writeResult <;> cases hf : stream.flushResult <;>
      simp [handle_connection, hread, hdec, hparse, hhandler, hw, hf]

theorem handler_error_yields_error_page_bytes_witness :
    handle_connection (fun _ => .error (.Other (("boom").data)))
      ⟨.ok (utf8Bytes (("GET / HTTP/1.1\r\n\r\n").data)), none, none⟩
      ⟨.InternalServerError, ("HTTP/1.1").data, [], none⟩ =
      .finished (.ok ())
        (Response.to_raw ⟨.InternalServerError, ("HTTP/1.1").data, [], none⟩) :=
  (handler_error_yields_error_page_bytes
    (fun _ => .error (.Other (("boom").data)))
    ⟨.ok (utf8Bytes (("GET / HTTP/1.1\r\n\r\n").data)), none, none⟩
    ⟨.InternalServerError, ("HTTP/1.1").data, [], none⟩
    (utf8Bytes (("GET / HTTP/1.1\r\n\r\n").data))
    (("GET / HTTP/1.1\r\n\r\n").data)
    ⟨("/").data, ("HTTP/1.1").data, [], .Get⟩
    (.Other (("boom").data))
    rfl rfl rfl rfl).1 rfl

/-- C3 (failing part, at the code's actual behavior): when the socket read
fails, `handle_connection` does not return the error to its caller — the
`unwrap()` on `stream.read` panics the worker thread, with no bytes
written; the claim that a step-1 error is returned and logged without ever
panicking the worker is contradicted by this. -/
theorem read_error_panics_worker
    (handler : Request → Except WebServerError Response)
    (page : Response) (e : IoError) (wr fr : Option IoError) :
    handle_connection handler ⟨.error e, wr, fr⟩ page = .panicked [] := rfl

/-- C4 (counterexample): a POST request whose blank-line separator is
present but whose body after it is empty does NOT yield a "missing data"
error — `Request::parse` succeeds with an empty POST body, because the
recovered body is `Some("")`, and only `None` triggers the error. -/
theorem post_empty_body_parses_ok :
    Request.parse (("POST / HTTP/1.1\r\n\r\n").data) =
      some (.ok ⟨("/").data, ("HTTP/1.1").data, [], .Post []⟩) := rfl

/-- C4 (amended): a POST request yields the "Post missing data" parse
error exactly when the header lines run to the end of the input with no
line after them (no blank-line separator anywhere); when a separator line
is present, parsing succeeds even if the body recovered after it is empty,
producing `Post("")`. -/
theorem post_missing_separator_missing_data :
    (∀ (req fl u v : List Char) (hs : List Header),
      (splitCRLF req).head? = some fl →
      splitChar ' ' fl = [("POST").data, u, v] →
      Request.parse_request_headers_and_data (splitCRLF req) = some (.ok (hs, none)) →
      Request.parse req = some (.error (parse_error (("Post missing data").data)))) ∧
    Request.parse (("POST / HTTP/1.1\r\n\r\n").data) =
      some (.ok ⟨("/").data, ("HTTP/1.1").data, [], .Post []⟩) := by
  constructor
  · intro req fl u v hs h1 h2 h3
    simp only [Request.parse, h1, h2, h3]
    norm_num
  · rfl

theorem post_missing_separator_missing_data_witness :
    Request.parse (("POST / HTTP/1.1").data) =
      some (.error (parse_error (("Post missing data").data))) :=
  post_missing_separator_missing_data.1 (("POST / HTTP/1.1").data)
    (("POST / HTTP/1.1").data) (("/").data) (("HTTP/1.1").data) [] rfl rfl rfl

/-- C5 (counterexample): a well-formed HEAD request is rejected by
`Request::parse` with a "Failed to match request type" error — HEAD is not
an accepted method token, even though the `RequestMethod::Head` variant
exists. -/
theorem head_request_rejected :
    Request.parse (("HEAD / HTTP/1.1\r\nHost: localhost\r\n\r\n").data) =
      some (.error (parse_error
        (("Failed to match request type with: HEAD").data))) := rfl

/-- C5 (amended): a well-formed GET request parses to a Request whose
method is `Get`, carrying no data; a HEAD request with the same shape is
rejected with the "Failed to match request type" parse error — the `Head`
variant is reserved and never produced by parsing. -/
theorem get_parses_head_rejected :
    (∀ (req fl u v : List Char) (hs : List Header) (d : Option (List Char)),
      (splitCRLF req).head? = some fl →
      splitChar ' ' fl = [("GET").data, u, v] →
      Request.parse_request_headers_and_data (splitCRLF req) = some (.ok (hs, d)) →
      Request.parse req = some (.ok ⟨u, v, hs, .Get⟩)) ∧
    (∀ (req fl u v : List Char) (hs : List Header) (d : Option (List Char)),
      (splitCRLF req).head? = some fl →
      splitChar ' ' fl = [("HEAD").data, u, v] →
      Request.parse_request_headers_and_data (splitCRLF req) = some (.ok (hs, d)) →
      Request.parse req = some (.error (parse_error
        (("Failed to match request type with: HEAD").data)))) := by
  constructor
  · intro req fl u v hs d h1 h2 h3
    simp only [Request.parse, h1, h2, h3]
    norm_num
  · intro req fl u v hs d h1 h2 h3
    simp only [Request.parse, h1, h2, h3]
    norm_num
    intro hcontra
    exact absurd hcontra (by decide)

theorem get_parses_head_rejected_witness :
    Request.parse (("GET / HTTP/1.1\r\n\r\n").data) =
      some (.ok ⟨("/").data, ("HTTP/1.1").data, [], .Get⟩) :=
  get_parses_head_rejected.1 (("GET / HTTP/1.1\r\n\r\n").data)
    (("GET / HTTP/1.1").data) (("/").data) (("HTTP/1.1").data) [] (some [])
    rfl rfl rfl

/-- C6 (counterexample): a header line that contains a colon but nothing
after it does not produce a parsed value — `&contents[1..]` slices an
empty string out of range and panics (modelled as `none`), so the claim
that every colon-bearing line parses to the after-colon text with one
character dropped is contradicted. -/
theorem header_colon_at_end_panics :
    Header.from_str (("Host:").data) = none := rfl

/-- C6 (amended): a header line with no colon yields a parse error (and
never panics); a line with a colon followed by at least one character
whose first post-colon character is a single UTF-8 byte (code point below
0x80) parses with exactly that one leading character dropped — whatever it
is, not only a space; but a line whose colon is the last character panics
on the out-of-range byte slice `&contents[1..]` instead of returning an
error. -/
theorem header_line_parsing :
    (∀ line : List Char, splitOnce ':' line = none →
      Header.from_str line = some (.error (parse_error
        (("Incorrectly formatted header: ").data ++ line ++ (" length: ").data ++
          Nat.toDigits 10 (utf8Length line))))) ∧
    (∀ (line hname : List Char) (c : Char) (rest : List Char),
      splitOnce ':' line = some (hname, c :: rest) → c.toNat < 0x80 →
      Header.from_str line =
        some (.ok (if hname = ("Host").data then .Host rest else .Other hname rest))) ∧
    (∀ line hname : List Char, splitOnce ':' line = some (hname, []) →
      Header.from_str line = none) := by
  refine ⟨?_, ?_, ?_⟩
  · intro line h
    simp only [Header.from_str, h]
  · intro line hname c rest h hc
    have hc' : ¬ 0x80 ≤ c.toNat := by omega
    by_cases hh : hname = ("Host").data <;> simp [Header.from_str, h, hc', hh]
  · intro line hname h
    simp only [Header.from_str, h]

theorem header_line_parsing_witness :
    Header.from_str (("Host: localhost").data) =
      some (.ok (.Host (("localhost").data))) :=
  header_line_parsing.2.1 (("Host: localhost").data) (("Host").data) ' '
    (("localhost").data) rfl (by decide)

/-- C7: `to_raw` with a body present produces the status line, CRLF, the
headers joined by CRLF, CRLF CRLF, then the raw body bytes appended as
binary; with no body it produces the status line, CRLF, and the headers
only, with no trailing terminator.  The status line is the HTTP version, a
space, the numeric code and the phrase, with codes Ok=200, Forbidden=403,
NotFound=404, MethodNotAllowed=405, InternalServerError=500. -/
theorem to_raw_format :
    (∀ (r : Response) (d : List Nat), r.data = some d →
      r.to_raw =
        utf8Bytes (r.http_version ++ (" ").data ++ r.which.to_string) ++
        utf8Bytes (("\r\n").data) ++
        utf8Bytes (List.intercalate (("\r\n").data) (r.headers.map Header.display)) ++
        utf8Bytes (("\r\n\r\n").data) ++ d) ∧
    (∀ r : Response, r.data = none →
      r.to_raw =
        utf8Bytes (r.http_version ++ (" ").data ++ r.which.to_string) ++
        utf8Bytes (("\r\n").data) ++
        utf8Bytes (List.intercalate (("\r\n").data) (r.headers.map Header.display))) ∧
    (∀ rt : ResponseType, rt.to_string =
      Nat.toDigits 10 rt.condition_code ++ (" ").data ++ rt.name) ∧
    ResponseType.condition_code .Ok = 200 ∧
    ResponseType.condition_code .Forbidden = 403 ∧
    ResponseType.condition_code .NotFound = 404 ∧
    ResponseType.condition_code .MethodNotAllowed = 405 ∧
    ResponseType.condition_code .InternalServerError = 500 := by
  refine ⟨?_, ?_, fun rt => rfl, rfl, rfl, rfl, rfl, rfl⟩
  · intro r d hd
    simp only [Response.to_raw, hd, utf8Bytes_append, List.append_assoc]
  · intro r hd
    simp only [Response.to_raw, hd, utf8Bytes_append, List.append_assoc]

theorem to_raw_format_witness :
    Response.to_raw ⟨.Ok, ("HTTP/1.1").data, [.ContentLength 1], some [65]⟩ =
      utf8Bytes (("HTTP/1.1").data ++ (" ").data ++ ResponseType.to_string .Ok) ++
      utf8Bytes (("\r\n").data) ++
      utf8Bytes (List.intercalate (("\r\n").data)
        ([Header.ContentLength 1].map Header.display)) ++
      utf8Bytes (("\r\n\r\n").data) ++ [65] :=
  to_raw_format.1 ⟨.Ok, ("HTTP/1.1").data, [.ContentLength 1], some [65]⟩ [65] rfl

/-- C8: when the filesystem read succeeds, `serve_file` builds a response
whose Content-Length header equals the byte length of the file's contents,
whose Content-Type header is the given content type, and whose body is
byte-for-byte the file's contents; when the read fails, the I/O error is
returned to the caller (wrapped into the crate's error enum by the
`From<io::Error>` conversion) and no response is constructed. -/
theorem serve_file_spec :
    (∀ (fs : List Char → Except IoError (List Nat)) (p : List Char)
        (ct : ContentType) (rt : ResponseType) (d : List Nat),
      fs p = .ok d →
      Response.serve_file fs p ct rt =
        .ok ⟨rt, HTTP_VERSION, [.ContentLength d.length, .ContentType ct], some d⟩) ∧
    (∀ (fs : List Char → Except IoError (List Nat)) (p : List Char)
        (ct : ContentType) (rt : ResponseType) (e : IoError),
      fs p = .error e →
      Response.serve_file fs p ct rt = .error (.IOError e)) := by
  constructor
  · intro fs p ct rt d h
    simp [Response.serve_file, h]
  · intro fs p ct rt e h
    simp [Response.serve_file, h]

theorem serve_file_spec_witness :
    Response.serve_file (fun _ => .ok [10, 20, 30]) (("index.html").data)
        ContentType.html .Ok =
      .ok ⟨.Ok, HTTP_VERSION,
        [.ContentLength 3, .ContentType ContentType.html], some [10, 20, 30]⟩ ∧
    Response.serve_file (fun _ => .error (.osError 2)) (("index.html").data)
        ContentType.html .Ok = .error (.IOError (.osError 2)) :=
  ⟨serve_file_spec.1 (fun _ => .ok [10, 20, 30]) (("index.html").data)
      ContentType.html .Ok [10, 20, 30] rfl,
   serve_file_spec.2 (fun _ => .error (.osError 2)) (("index.html").data)
      ContentType.html .Ok (.osError 2) rfl⟩

/-- C9: a request whose first line does not split on single spaces into
exactly 3 tokens always makes `Request::parse` return the
malformed-request error — the error path is taken before any code that
could panic. -/
theorem malformed_first_line_errors
    (req fl : List Char)
    (hfl : (splitCRLF req).head? = some fl)
    (hlen : (splitChar ' ' fl).length ≠ 3) :
    Request.parse req =
      some (.error (parse_error (("Malformed request: ").data ++ req))) := by
  simp only [Request.parse, hfl]
  rcases h : splitChar ' ' fl with _ | ⟨a, _ | ⟨b, _ | ⟨c, _ | ⟨dd, t⟩⟩⟩⟩ <;>
    rw [h] at hlen <;> simp_all

theorem malformed_first_line_errors_witness :
    Request.parse (("GET /\r\n").data) =
      some (.error (parse_error (("Malformed request: GET /\r\n").data))) :=
  malformed_first_line_errors (("GET /\r\n").data) (("GET /").data) rfl (by decide)

/-- C10: header parsing produces a structured variant only for the name
`Host` — a successfully parsed line whose name is `Host` yields
`Header::Host`, any other name (including `Content-Length` and
`Content-Type`) yields `Header::Other`, and the `ContentLength` and
`ContentType` variants are never produced by parsing. -/
theorem header_variants_from_parsing :
    (∀ (line : List Char) (n : Nat),
      Header.from_str line ≠ some (.ok (.ContentLength n))) ∧
    (∀ (line : List Char) (c : ContentType),
      Header.from_str line ≠ some (.ok (.ContentType c))) ∧
    (∀ (line : List Char) (c : Char) (rest : List Char),
      splitOnce ':' line = some (("Host").data, c :: rest) → c.toNat < 0x80 →
      Header.from_str line = some (.ok (.Host rest))) ∧
    (∀ (line hname : List Char) (c : Char) (rest : List Char),
      splitOnce ':' line = some (hname, c :: rest) → c.toNat < 0x80 →
      hname ≠ ("Host").data →
      Header.from_str line = some (.ok (.Other hname rest))) := by
  refine ⟨?_, ?_, ?_, ?_⟩
  · intro line n h
    rcases hs : splitOnce ':' line with _ | ⟨hd, cont⟩
    · simp [Header.from_str, hs] at h
    · rcases cont with _ | ⟨c, rest⟩
      · simp [Header.from_str, hs] at h
      · by_cases hc : 0x80 ≤ c.toNat
        · simp [Header.from_str, hs, hc] at h
        · by_cases hh : hd = ("Host").data <;>
            simp [Header.from_str, hs, hc, hh] at h
  · intro line c h
    rcases hs : splitOnce ':' line with _ | ⟨hd, cont⟩
    · simp [Header.from_str, hs] at h
    · rcases cont with _ | ⟨c', rest⟩
      · simp [Header.from_str, hs] at h
      · by_cases hc : 0x80 ≤ c'.toNat
        · simp [Header.from_str, hs, hc] at h
        · by_cases hh : hd = ("Host").data <;>
            simp [Header.from_str, hs, hc, hh] at h
  · intro line c rest h hc
    have hc' : ¬ 0x80 ≤ c.toNat := by omega
    simp [Header.from_str, h, hc']
  · intro line hname c rest h hc hh
    have hc' : ¬ 0x80 ≤ c.toNat := by omega
    simp [Header.from_str, h, hc', hh]

theorem header_variants_from_parsing_witness :
    Header.from_str (("Host: x").data) = some (.ok (.Host (("x").data))) ∧
    Header.from_str (("Content-Length: 5").data) =
      some (.ok (.Other (("Content-Length").data) (("5").data))) :=
  ⟨header_variants_from_parsing.2.2.1 (("Host: x").data) ' ' (("x").data)
      rfl (by decide),
   header_variants_from_parsing.2.2.2 (("Content-Length: 5").data)
      (("Content-Length").data) ' ' (("5").data) rfl (by decide) (by decide)⟩

end Web
